import Mathlib

/-!
Shallow embedding of the SQL JOIN-order analyzer of
`analyze_join_order.py` (class `SQLJoinAnalyzer` and `main`).

Strings are modelled as `List Char` (`Str`), Python dicts as
insertion-ordered association lists, and every regular expression used
by the script is embedded as an explicit scanning function with the
same match semantics (anchored vs. searching, greedy munching,
alternation order) on the ASCII fragment the script exercises.
-/

/-- One line of text, Python `str`. -/
abbrev Str := List Char

/-- ASCII whitespace, the fragment of Python `str.strip` / regex `\s`
exercised by the analyzer. -/
def isWs (c : Char) : Bool :=
  c == ' ' || c == '\t' || c == '\n' || c == '\r' || c == '\x0b' || c == '\x0c'

/-- ASCII lowercasing, Python `str.lower` on the analyzer's inputs. -/
def toLowerChar (c : Char) : Char :=
  if 65 ≤ c.toNat ∧ c.toNat ≤ 90 then Char.ofNat (c.toNat + 32) else c

/-- ASCII uppercasing, Python `str.upper` on the analyzer's inputs. -/
def toUpperChar (c : Char) : Char :=
  if 97 ≤ c.toNat ∧ c.toNat ≤ 122 then Char.ofNat (c.toNat - 32) else c

def lowerStr (l : Str) : Str := l.map toLowerChar

def upperStr (l : Str) : Str := l.map toUpperChar

/-- Python `\w` (ASCII fragment): letters, digits, underscore. -/
def isWordChar (c : Char) : Bool :=
  (65 ≤ c.toNat ∧ c.toNat ≤ 90) || (97 ≤ c.toNat ∧ c.toNat ≤ 122) ||
  (48 ≤ c.toNat ∧ c.toNat ≤ 57) || c == '_'

/-- `[a-zA-Z_]`: first character of an identifier. -/
def isIdentStart (c : Char) : Bool :=
  (65 ≤ c.toNat ∧ c.toNat ≤ 90) || (97 ≤ c.toNat ∧ c.toNat ≤ 122) || c == '_'

def pyStripLeft (l : Str) : Str := l.dropWhile isWs

def pyStripRight (l : Str) : Str := (l.reverse.dropWhile isWs).reverse

/-- Python `str.strip()`. -/
def pyStrip (l : Str) : Str := pyStripRight (pyStripLeft l)

/-- Python `str.split('\n')` (keeps empty pieces; `""` gives `[""]`). -/
def splitLines : Str → List Str
  | [] => [[]]
  | c :: rest =>
    if c = '\n' then [] :: splitLines rest
    else
      match splitLines rest with
      | [] => [[c]]
      | h :: t => (c :: h) :: t

/-- Case-insensitive prefix match: if `l` starts with keyword `kw`
(compared case-insensitively), return the consumed original characters
and the remainder. -/
def ciSplit : Str → Str → Option (Str × Str)
  | [], l => some ([], l)
  | _ :: _, [] => none
  | k :: ks, c :: cs =>
    if toUpperChar c = toUpperChar k then
      match ciSplit ks cs with
      | some (a, r) => some (c :: a, r)
      | none => none
    else none

/-- Case-insensitive "starts with". -/
def startsCI (kw l : Str) : Bool := (ciSplit kw l).isSome

/-- Exact (case-sensitive) "starts with". -/
def startsWithB : Str → Str → Bool
  | [], _ => true
  | _ :: _, [] => false
  | a :: as, b :: bs => a == b && startsWithB as bs

/-- Exact substring test, Python `pat in s`. -/
def isSubstr (pat : Str) : Str → Bool
  | [] => pat.isEmpty
  | l@(_ :: rest) => startsWithB pat l || isSubstr pat rest

/-- Case-insensitive "ends with" (on stripped lines this is exactly
Python `re.search(r'KW\s*$', line)`). -/
def endsCI (kw l : Str) : Bool :=
  startsWithB (lowerStr kw).reverse (lowerStr l).reverse

/-- Case-insensitive string equality. -/
def eqCI (a b : Str) : Bool := lowerStr a == lowerStr b

/-- Case-insensitive substring test, Python `kw in s.lower()` with `kw`
lowercase. -/
def containsCI (kw l : Str) : Bool := isSubstr (lowerStr kw) (lowerStr l)

/-- Python `re.sub(r'\s+', ' ', s)`: collapse every whitespace run to a
single space. `inWs` records whether the previous character was part of
a run already replaced. -/
def collapseWsGo : Bool → Str → Str
  | _, [] => []
  | inWs, c :: rest =>
    if isWs c then
      if inWs then collapseWsGo true rest else ' ' :: collapseWsGo true rest
    else c :: collapseWsGo false rest

def collapseWs (l : Str) : Str := collapseWsGo false l

/-! ## Data model -/

/-- `JoinClause` dataclass of `analyze_join_order.py`. -/
structure JoinClause where
  join_type : Str
  left_table : Str
  right_table : Str
  join_condition : Str
  cte_name : Option Str
  line_number : Nat
deriving DecidableEq

/-- `TableInfo` dataclass of `analyze_join_order.py`. -/
structure TableInfo where
  name : Str
  full_name : Str
  size_category : Str
  is_cte : Bool
  description : Str
  estimated_rows : Str
deriving DecidableEq

/-- `self.tables`: an insertion-ordered dict from table name to
`TableInfo`. -/
abbrev TableMap := List (Str × TableInfo)

/-- Dict lookup on the table map. -/
def lookupT : TableMap → Str → Option TableInfo
  | [], _ => none
  | (k, v) :: rest, n => if k = n then some v else lookupT rest n

/-- `self.table_context_info`: table name to optional size hint (an
entry with `none` models a name present in the dict without a
`size_hint` key). -/
abbrev HintMap := List (Str × Option Str)

def lookupHint : HintMap → Str → Option (Option Str)
  | [], _ => none
  | (k, v) :: rest, n => if k = n then some v else lookupHint rest n

/-! ## `extract_table_name` -/

/-- `SQLJoinAnalyzer.extract_table_name`: strip, lowercase, take the
first whitespace-separated token (`re.split(r'\s+(?:as\s+)?', ...)`,
first part), then the part after the last dot when schema-qualified. -/
def extractTableName (table_reference : Str) : Str :=
  let t := pyStrip table_reference
  let tablePart := (lowerStr t).takeWhile (fun c => !(isWs c))
  if ('.' : Char) ∈ tablePart then
    (tablePart.reverse.takeWhile (fun c => c != '.')).reverse
  else tablePart

/-! ## `categorize_table_size` and `_estimate_table_rows` -/

def largeTablePatterns : List Str :=
  [("fact").toList, ("order_contribution_profit_fact").toList,
   ("managed_delivery_fact_v2").toList, ("ticket_fact").toList,
   ("order_cancellation_fact").toList, ("adjustment_reporting").toList,
   ("concession_reporting").toList, ("guarantee_claim").toList,
   ("cancellation_result").toList]

def mediumTablePatterns : List Str := [("cancellation_reason_map").toList]

def smallTablePatterns : List Str :=
  [("primary_contact_reason").toList, ("secondary_contact_reason").toList,
   ("care_cost_reasons").toList]

def cteAliasNames : List Str :=
  [("adj").toList, ("ghg").toList, ("care_fg").toList,
   ("diner_ss_cancels").toList, ("cancels").toList, ("mdf").toList,
   ("contacts").toList, ("o").toList, ("o2").toList, ("o3").toList]

def sLarge : Str := ("large").toList
def sMedium : Str := ("medium").toList
def sSmall : Str := ("small").toList
def sDerived : Str := ("derived").toList
def sUnknownSize : Str := ("unknown").toList

/-- `SQLJoinAnalyzer.categorize_table_size`. -/
def categorizeTableSize (hints : HintMap) (table_name : Str) : Str :=
  let tl := lowerStr table_name
  match lookupHint hints table_name with
  | some (some h) => h
  | _ =>
    if largeTablePatterns.any (fun p => isSubstr p tl) then sLarge
    else if mediumTablePatterns.any (fun p => isSubstr p tl) then sMedium
    else if smallTablePatterns.any (fun p => isSubstr p tl) then sSmall
    else if isSubstr ("integrated_").toList tl ∧ isSubstr ("fact").toList tl then sLarge
    else if isSubstr ("integrated_").toList tl then sMedium
    else if isSubstr ("source_").toList tl ∧
            (isSubstr ("reporting").toList tl ∨ isSubstr ("fact").toList tl) then sLarge
    else if isSubstr ("source_").toList tl then sMedium
    else if isSubstr ("ref").toList tl ∨ isSubstr ("reference").toList tl then sSmall
    else if isSubstr ("ods.").toList tl then sLarge
    else if tl ∈ cteAliasNames then sDerived
    else sUnknownSize

/-- `SQLJoinAnalyzer._estimate_table_rows`. -/
def estimateTableRows (table_name size_category : Str) : Str :=
  let tl := lowerStr table_name
  if isSubstr ("order_contribution_profit_fact").toList tl then ("100M+").toList
  else if isSubstr ("managed_delivery_fact").toList tl then ("50M+").toList
  else if isSubstr ("ticket_fact").toList tl then ("10M+").toList
  else if isSubstr ("adjustment_reporting").toList tl ∨
          isSubstr ("concession_reporting").toList tl then ("5M+").toList
  else if isSubstr ("cancellation").toList tl ∧ isSubstr ("fact").toList tl then ("1M+").toList
  else if isSubstr ("primary_contact_reason").toList tl ∨
          isSubstr ("secondary_contact_reason").toList tl then ("<1K").toList
  else if isSubstr ("care_cost_reasons").toList tl then ("<100").toList
  else if size_category = sLarge then ("1M+").toList
  else if size_category = sMedium then ("100K-1M").toList
  else if size_category = sSmall then ("<100K").toList
  else if size_category = sDerived then ("Variable").toList
  else if size_category = sUnknownSize then ("Unknown").toList
  else ("Unknown").toList

/-! ## `_register_table` -/

/-- `SQLJoinAnalyzer._register_table`: insert only on first sight;
`is_cte` is true iff the full reference has no schema-qualifying dot. -/
def registerTable (hints : HintMap) (tables : TableMap)
    (table_name full_reference : Str) : TableMap :=
  match lookupT tables table_name with
  | some _ => tables
  | none =>
    let size_category := categorizeTableSize hints full_reference
    let is_cte : Bool := if ('.' : Char) ∈ full_reference then false else true
    tables ++ [(table_name,
      { name := table_name, full_name := full_reference,
        size_category := size_category, is_cte := is_cte,
        description := [],
        estimated_rows := estimateTableRows table_name size_category })]

/-! ## Line matchers (the regular expressions of `parse_joins` and its
helpers, embedded with Python `re` search/match semantics) -/

/-- The five optional join qualifiers, in the regex alternation order. -/
def kwLeft : Str := ("left").toList
def kwRight : Str := ("right").toList
def kwInner : Str := ("inner").toList
def kwFull : Str := ("full").toList
def kwCross : Str := ("cross").toList
def kwJoin : Str := ("join").toList

/-- One alternative of `(?:Q\s+)?JOIN` at a fixed position: qualifier
`kw`, at least one whitespace, then `JOIN`; returns (consumed, rest). -/
def tryQualJoin (kw m : Str) : Option (Str × Str) :=
  match ciSplit kw m with
  | none => none
  | some (q, r1) =>
    let ws := r1.takeWhile isWs
    if ws = [] then none
    else
      match ciSplit kwJoin (r1.dropWhile isWs) with
      | none => none
      | some (jw, r3) => some (q ++ ws ++ jw, r3)

/-- `re.search(r'^\s*((?:LEFT\s+|RIGHT\s+|INNER\s+|FULL\s+|CROSS\s+)?JOIN)\s*(.*)$', line, re.IGNORECASE)`:
returns (group 1, the tail that `\s*(.*)$` matches from).  Since no two
alternatives can fire at the same position, the ordered alternation is a
first-success chain. -/
def matchJoinLine (l : Str) : Option (Str × Str) :=
  let m := l.dropWhile isWs
  match tryQualJoin kwLeft m with
  | some r => some r
  | none =>
  match tryQualJoin kwRight m with
  | some r => some r
  | none =>
  match tryQualJoin kwInner m with
  | some r => some r
  | none =>
  match tryQualJoin kwFull m with
  | some r => some r
  | none =>
  match tryQualJoin kwCross m with
  | some r => some r
  | none => ciSplit kwJoin m

/-- `re.search(r'^\s*(\w+)\s+AS\s*\(', line, re.IGNORECASE)`: a CTE
definition line; returns the CTE name (group 1). -/
def matchCte (l : Str) : Option Str :=
  let m := l.dropWhile isWs
  let w := m.takeWhile isWordChar
  if w = [] then none
  else
    let r1 := m.dropWhile isWordChar
    let ws := r1.takeWhile isWs
    if ws = [] then none
    else
      match ciSplit (("as").toList) (r1.dropWhile isWs) with
      | none => none
      | some (_, r2) =>
        match r2.dropWhile isWs with
        | '(' :: _ => some w
        | _ => none

/-- `[^\s,\)]`: a character allowed in a captured table reference. -/
def isTblChar (c : Char) : Bool := !(isWs c) && c != ',' && c != ')'

/-- One attempt of `FROM\s+([^\s,\)]+)` at a fixed position. -/
def tryFromAt (l : Str) : Option Str :=
  match ciSplit (("from").toList) l with
  | none => none
  | some (_, r) =>
    if (r.takeWhile isWs) = [] then none
    else
      let cap := (r.dropWhile isWs).takeWhile isTblChar
      if cap = [] then none else some cap

/-- `re.search(r'FROM\s+([^\s,\)]+)', line, re.IGNORECASE)`: unanchored
leftmost search. -/
def searchFromTable : Str → Option Str
  | [] => none
  | l@(_ :: rest) =>
    match tryFromAt l with
    | some cap => some cap
    | none => searchFromTable rest

/-- One attempt of `(?:Q\s+)?JOIN\s+([^\s,\)]+)` at a fixed position:
after the join keyword, at least one whitespace then a capture. -/
def tryJoinTableAt (l : Str) : Option Str :=
  let afterJoin : Str → Option Str := fun r =>
    if (r.takeWhile isWs) = [] then none
    else
      let cap := (r.dropWhile isWs).takeWhile isTblChar
      if cap = [] then none else some cap
  match tryQualJoin kwLeft l with
  | some (_, r) => afterJoin r
  | none =>
  match tryQualJoin kwRight l with
  | some (_, r) => afterJoin r
  | none =>
  match tryQualJoin kwInner l with
  | some (_, r) => afterJoin r
  | none =>
  match tryQualJoin kwFull l with
  | some (_, r) => afterJoin r
  | none =>
  match tryQualJoin kwCross l with
  | some (_, r) => afterJoin r
  | none =>
  match ciSplit kwJoin l with
  | some (_, r) => afterJoin r
  | none => none

/-- `re.search(r'(?:LEFT\s+|RIGHT\s+|INNER\s+|FULL\s+|CROSS\s+)?JOIN\s+([^\s,\)]+)', line, re.IGNORECASE)`. -/
def searchJoinTable : Str → Option Str
  | [] => none
  | l@(_ :: rest) =>
    match tryJoinTableAt l with
    | some cap => some cap
    | none => searchJoinTable rest

/-- `re.match(r'^\s*([a-zA-Z_][a-zA-Z0-9_.]*)\s*(?:[a-zA-Z_][a-zA-Z0-9_]*\s*)?$', line)`:
a bare (possibly schema-qualified) identifier with an optional alias and
nothing else.  Greedy munching is deterministic here (see the source
regex: a shorter identifier munch always leaves an identifier character
where whitespace or end is required). -/
def isIdentDotChar (c : Char) : Bool := isWordChar c || c == '.'

def matchTableLine (l : Str) : Option Str :=
  let m := l.dropWhile isWs
  match m with
  | [] => none
  | c :: cs =>
    if isIdentStart c then
      let ident := c :: cs.takeWhile isIdentDotChar
      let r1 := cs.dropWhile isIdentDotChar
      let r2 := r1.dropWhile isWs
      if r1 = [] ∨ r2 = [] then some ident
      else if r1.takeWhile isWs = [] then none
      else
        match r2 with
        | d :: ds =>
          if isIdentStart d then
            if ((ds.dropWhile isWordChar).dropWhile isWs) = [] then some ident
            else none
          else none
        | [] => some ident
    else none

/-- `re.search(r'^\s*ON\b', line, re.IGNORECASE)` on a (stripped)
line: starts with `ON` followed by a non-word character or the end. -/
def isOnLine (l : Str) : Bool :=
  match l with
  | a :: b :: rest =>
    toUpperChar a == 'O' && toUpperChar b == 'N' &&
    (match rest with
     | [] => true
     | c :: _ => !(isWordChar c))
  | _ => false

/-- One attempt of `ON\s+(.+)` at a fixed position.  `(.+)` is greedy
to the end of the line; when everything after the whitespace run is
empty, the engine backtracks one whitespace character into `(.+)`. -/
def tryOnCondAt (l : Str) : Option Str :=
  match ciSplit (("on").toList) l with
  | none => none
  | some (_, r) =>
    let ws := r.takeWhile isWs
    if ws = [] then none
    else
      match r.dropWhile isWs with
      | [] => if 2 ≤ ws.length then some [ws.getLast!] else none
      | rest => some rest

/-- `re.search(r'ON\s+(.+)', line, re.IGNORECASE)`: unanchored leftmost
search for the captured condition text. -/
def searchOnCond : Str → Option Str
  | [] => none
  | l@(_ :: rest) =>
    match tryOnCondAt l with
    | some cap => some cap
    | none => searchOnCond rest

/-- `Q\s+JOIN` at the start of a line: one alternative of the stop-clause
patterns. -/
def startsQualJoin (kw l : Str) : Bool :=
  match ciSplit kw l with
  | none => false
  | some (_, r) =>
    !(r.takeWhile isWs).isEmpty && startsCI kwJoin (r.dropWhile isWs)

/-- `re.search(r'^\s*(LEFT\s+JOIN|RIGHT\s+JOIN|INNER\s+JOIN|FULL\s+JOIN|JOIN|FROM|WHERE|GROUP|ORDER|SELECT)', line, re.IGNORECASE)`
on a stripped line (note: no `CROSS\s+JOIN` alternative in the source). -/
def stopClauseOuter (l : Str) : Bool :=
  startsQualJoin kwLeft l || startsQualJoin kwRight l ||
  startsQualJoin kwInner l || startsQualJoin kwFull l ||
  startsCI kwJoin l || startsCI (("from").toList) l ||
  startsCI (("where").toList) l || startsCI (("group").toList) l ||
  startsCI (("order").toList) l || startsCI (("select").toList) l

/-- The same stop-clause list with the additional `\)` alternative used
inside the multi-line condition loop. -/
def stopClauseInner (l : Str) : Bool :=
  stopClauseOuter l || startsWithB ((")").toList) l

/-- `re.search(r'^\s*AND\s+', next_line, re.IGNORECASE)` on a stripped
line: `AND` followed by at least one whitespace. -/
def isAndCont (l : Str) : Bool :=
  match ciSplit (("and").toList) l with
  | none => false
  | some (_, r) =>
    match r with
    | [] => false
    | c :: _ => isWs c

/-! ## `_find_left_table` -/

def sUnknownTable : Str := ("unknown").toList

/-- One step of the backward scan of `_find_left_table`, examining
0-based index `n` (argument `n + 1`); `0` means the scan ran past the
start of the file.  The standalone-`FROM` branch falls through to the
remaining checks when its next-line lookup fails, exactly as in the
source. -/
def findLeftGo (lines : List Str) : Nat → Str
  | 0 => sUnknownTable
  | n + 1 =>
    let l := pyStrip ((lines.get? n).getD [])
    if l = [] ∨ startsWithB (("--").toList) l then findLeftGo lines n
    else
      let standalone : Option Str :=
        if eqCI l (("from").toList) then
          match lines.get? (n + 1) with
          | some nl0 =>
            let nl := pyStrip nl0
            if nl ≠ [] ∧ ¬ startsWithB (("--").toList) nl then
              some (extractTableName nl)
            else none
          | none => none
        else none
      match standalone with
      | some t => t
      | none =>
        match searchFromTable l with
        | some cap => extractTableName (pyStrip cap)
        | none =>
          match searchJoinTable l with
          | some cap => extractTableName (pyStrip cap)
          | none =>
            match matchTableLine l with
            | some ident =>
              if 1 ≤ n then
                let prev := pyStrip ((lines.get? (n - 1)).getD [])
                if endsCI kwJoin prev then extractTableName ident
                else if endsCI (("from").toList) prev then extractTableName ident
                else if startsCI (("select").toList) l ∨ startsCI (("with").toList) l ∨
                        startsWithB ((")").toList) l then sUnknownTable
                else findLeftGo lines n
              else
                if startsCI (("select").toList) l ∨ startsCI (("with").toList) l ∨
                   startsWithB ((")").toList) l then sUnknownTable
                else findLeftGo lines n
            | none =>
              if startsCI (("select").toList) l ∨ startsCI (("with").toList) l ∨
                 startsWithB ((")").toList) l then sUnknownTable
              else findLeftGo lines n

/-- `SQLJoinAnalyzer._find_left_table` for the JOIN on 1-based line
`i`: scan 0-based indices `i - 2, ..., 0`. -/
def findLeftTable (lines : List Str) (i : Nat) : Str :=
  findLeftGo lines (i - 1)

/-! ## `_extract_join_condition` -/

/-- The `AND`-continuation loop (`range(i + 1, min(len, i + 5))`):
append stripped `AND ...` lines, skip blanks and comments, stop at the
first other line. -/
def andLoop (lines : List Str) : Nat → Nat → List Str → List Str
  | _, 0, acc => acc
  | j, fuel + 1, acc =>
    match lines.get? j with
    | none => acc
    | some nl0 =>
      let nl := pyStrip nl0
      if nl = [] ∨ startsWithB (("--").toList) nl then andLoop lines (j + 1) fuel acc
      else if isAndCont nl then andLoop lines (j + 1) fuel (acc ++ [nl])
      else acc

/-- The outer scan of `_extract_join_condition`
(`range(start, min(len, start + 8))`): `some condLines` when an `ON`
line is found (taking the branch that collects the condition), `none`
when a stop clause or window/file exhaustion ends the scan first. -/
def ejcScan (lines : List Str) : Nat → Nat → Option (List Str)
  | _, 0 => none
  | i, fuel + 1 =>
    match lines.get? i with
    | none => none
    | some l0 =>
      let l := pyStrip l0
      if l = [] ∨ startsWithB (("--").toList) l then ejcScan lines (i + 1) fuel
      else if isOnLine l then
        let base : List Str :=
          match searchOnCond l with
          | some cap => [pyStrip cap]
          | none => []
        some (andLoop lines (i + 1) 4 base)
      else if stopClauseOuter l then none
      else ejcScan lines (i + 1) fuel

def sNotFound : Str := ("Not found").toList

/-- `SQLJoinAnalyzer._extract_join_condition`: join the collected lines
with spaces, collapse whitespace, truncate at 120 characters, and fall
back to the literal `"Not found"`. -/
def extractJoinCondition (lines : List Str) (start : Nat) : Str :=
  match ejcScan lines start 8 with
  | none => sNotFound
  | some condLines =>
    let t := pyStrip (List.intercalate [' '] condLines)
    if t = [] then sNotFound
    else
      let t2 := collapseWs t
      if 120 < t2.length then t2.take 117 ++ ("...").toList else t2

/-! ## `parse_joins` -/

/-- The body of the `parse_joins` loop.  `rem` is the not yet visited
suffix of `lines` (driving the recursion), `i` the 1-based number of
its first line; the full `lines` list is kept for the backward and
forward scans exactly as the source indexes into it. -/
def parseGo (hints : HintMap) (lines : List Str) :
    List Str → Nat → Option Str → List JoinClause → TableMap →
    List JoinClause × TableMap
  | [], _, _, js, ts => (js, ts)
  | line :: rest, i, cte, js, ts =>
    match matchCte line with
    | some name => parseGo hints lines rest (i + 1) (some name) js ts
    | none =>
      match matchJoinLine line with
      | none => parseGo hints lines rest (i + 1) cte js ts
      | some (g1, g2) =>
        let join_type := upperStr (pyStrip g1)
        let rtp0 := pyStrip g2
        let next : Str × Nat :=
          if rtp0 = [] then
            match rest with
            | nl0 :: _ =>
              let nl := pyStrip nl0
              if nl ≠ [] ∧ ¬ startsWithB (("ON").toList) nl then (nl, i + 1)
              else (rtp0, i)
            | [] => (rtp0, i)
          else (rtp0, i)
        let rtp := next.1
        let tli := next.2
        if rtp = [] then parseGo hints lines rest (i + 1) cte js ts
        else
          let right_table := extractTableName rtp
          let left_table := findLeftTable lines i
          let join_condition := extractJoinCondition lines tli
          let j : JoinClause :=
            { join_type := join_type, left_table := left_table,
              right_table := right_table, join_condition := join_condition,
              cte_name := cte, line_number := i }
          let ts1 := registerTable hints ts left_table left_table
          let ts2 := registerTable hints ts1 right_table rtp
          parseGo hints lines rest (i + 1) cte (js ++ [j]) ts2

/-- `SQLJoinAnalyzer.parse_joins` over a pre-split line list. -/
def parseJoins (hints : HintMap) (lines : List Str) :
    List JoinClause × TableMap :=
  parseGo hints lines lines 1 none [] []

/-- `parse_joins` from the raw SQL text (`self.sql_content.split('\n')`). -/
def parseJoinsStr (hints : HintMap) (sql : Str) : List JoinClause × TableMap :=
  parseJoins hints (splitLines sql)

/-! ## `_analyze_join_condition_for_indexes` -/

/-- One attempt of `(\w+)\.(\w+)\s*=\s*(\w+)\.(\w+)` at a fixed
position; returns the four captures and the rest after the match end.
All munching is deterministic (each greedy `\w+` must be followed by a
character outside `\w`). -/
def tryColEqAt (l : Str) : Option ((Str × Str × Str × Str) × Str) :=
  let w1 := l.takeWhile isWordChar
  if w1 = [] then none
  else
    match l.dropWhile isWordChar with
    | '.' :: r2 =>
      let w2 := r2.takeWhile isWordChar
      if w2 = [] then none
      else
        match (r2.dropWhile isWordChar).dropWhile isWs with
        | '=' :: r4 =>
          let r5 := r4.dropWhile isWs
          let w3 := r5.takeWhile isWordChar
          if w3 = [] then none
          else
            match r5.dropWhile isWordChar with
            | '.' :: r6 =>
              let w4 := r6.takeWhile isWordChar
              if w4 = [] then none
              else some ((w1, w2, w3, w4), r6.dropWhile isWordChar)
            | _ => none
        | _ => none
    | _ => none

/-- `re.findall` for the column-equality pattern: leftmost,
non-overlapping. -/
def findallColEq : Str → Nat → List (Str × Str × Str × Str)
  | _, 0 => []
  | [], _ => []
  | l@(_ :: rest), fuel + 1 =>
    match tryColEqAt l with
    | some (caps, r) => caps :: findallColEq r fuel
    | none => findallColEq rest fuel

/-- `re.search(r'BETWEEN.*DATE', condition, re.IGNORECASE)`: some
`BETWEEN` followed on the same line by a later `DATE`. -/
def searchBetweenDate : Str → Bool
  | [] => false
  | l@(_ :: rest) =>
    (startsCI (("between").toList) l &&
      containsCI (("date").toList) ((l.drop 7).takeWhile (fun c => c != '\n'))) ||
    searchBetweenDate rest

/-- `SQLJoinAnalyzer._analyze_join_condition_for_indexes`.  Python
finishes with `list(set(...))`, whose iteration order is unspecified;
we keep first occurrences (`dedup`), which is the only place the
embedding fixes an order the source leaves open. -/
def analyzeJoinConditionForIndexes (condition left_table right_table : Str) :
    List Str :=
  let pats := findallColEq condition condition.length
  let recs := pats.foldl
    (fun acc caps =>
      let t1 := caps.1
      let c1 := caps.2.1
      let t2 := caps.2.2.1
      let c2 := caps.2.2.2
      let acc1 :=
        if lowerStr t1 = lowerStr left_table ∨ lowerStr t1 = lowerStr right_table then
          acc ++ [("Consider index on ").toList ++ t1 ++ [('.' : Char)] ++ c1]
        else acc
      if lowerStr t2 = lowerStr left_table ∨ lowerStr t2 = lowerStr right_table then
        acc1 ++ [("Consider index on ").toList ++ t2 ++ [('.' : Char)] ++ c2]
      else acc1)
    []
  let recs2 := recs ++
    (if searchBetweenDate condition then
      [("Date range condition detected - consider table partitioning by date").toList]
     else [])
  recs2.dedup

/-! ## `analyze_join_order` -/

/-- The per-join record assembled by `analyze_join_order`. -/
structure Recommendation where
  cte_name : Option Str
  line_number : Nat
  join_type : Str
  left_table : Str
  right_table : Str
  left_size : Str
  right_size : Str
  current_order : Str
  join_condition : Str
  issue : Option Str
  suggested_order : Option Str
  priority : Str
  performance_impact : Str
  optimization_notes : List Str
  index_recommendations : List Str
deriving DecidableEq

def sHigh : Str := ("high").toList
def sMediumPr : Str := ("medium").toList
def sLow : Str := ("low").toList
def sInfo : Str := ("info").toList
def sCritical : Str := ("critical").toList
def sLeftJoin : Str := ("LEFT JOIN").toList
def sp : Str := [' ']

def cartWarning : Str :=
  (" WARNING: No JOIN condition found - potential Cartesian product!").toList

def noteSwapLarge : Str :=
  ("Moving larger table to left side enables more efficient hash join strategies").toList

def noteSwapMedium : Str :=
  ("Reordering can improve join efficiency and reduce memory usage").toList

def noteDerived : Str :=
  ("Derived table size depends on preceding query logic - monitor actual row counts").toList

def noteLeftJoin : Str :=
  ("LEFT JOIN preserves all rows from left table - consider if INNER JOIN is possible for better performance").toList

def noteCritical : Str :=
  ("CRITICAL: Missing JOIN condition will create Cartesian product - query may fail or take extremely long").toList

/-- The body of the `analyze_join_order` loop for a single join:
`none` when one of the two tables is not registered (the `continue`),
otherwise the fully assembled recommendation. -/
def mkRecommendation (tables : TableMap) (j : JoinClause) :
    Option Recommendation :=
  match lookupT tables j.left_table, lookupT tables j.right_table with
  | some li, some ri =>
    let index_recommendations :=
      if j.join_condition ≠ [] ∧ j.join_condition ≠ sNotFound then
        analyzeJoinConditionForIndexes j.join_condition j.left_table j.right_table
      else []
    let swapOrder := j.right_table ++ sp ++ j.join_type ++ sp ++ j.left_table
    let sizeBranch :
        Option Str × Option Str × Str × Str × List Str × Bool :=
      if ri.size_category = sLarge ∧
         (li.size_category = sMedium ∨ li.size_category = sSmall) ∧
         li.is_cte = false ∧ ri.is_cte = false then
        (some (("Large table (").toList ++ j.right_table ++
          (") should typically be on the left side of JOIN for better performance").toList),
         some swapOrder, sHigh,
         ("High - can significantly reduce query execution time").toList,
         [noteSwapLarge], true)
      else if ri.size_category = sMedium ∧ li.size_category = sSmall ∧
              li.is_cte = false ∧ ri.is_cte = false then
        (some (("Medium table (").toList ++ j.right_table ++
          (") should typically be on the left side when joining with small table for better performance").toList),
         some swapOrder, sMediumPr,
         ("Medium - moderate performance improvement expected").toList,
         [noteSwapMedium], true)
      else if ri.size_category = sLarge ∧ li.size_category = sDerived then
        (some (("Consider the size of derived table (").toList ++ j.left_table ++
          (") - if small, consider moving large table (").toList ++ j.right_table ++
          (") to the left").toList),
         some (("Depends on derived table size: possibly ").toList ++ swapOrder),
         sInfo, ("Variable - depends on derived table size").toList,
         [noteDerived], false)
      else (none, none, sLow, ("Low").toList, [], false)
    let issue1 := sizeBranch.1
    let suggested := sizeBranch.2.1
    let prio1 := sizeBranch.2.2.1
    let impact1 := sizeBranch.2.2.2.1
    let notes1 := sizeBranch.2.2.2.2.1
    let issueFound := sizeBranch.2.2.2.2.2
    let notes2 := notes1 ++
      (if j.join_type = sLeftJoin ∧ issueFound = false then [noteLeftJoin] else [])
    let final : Option Str × Str × Str × List Str :=
      if j.join_condition = sNotFound then
        (some (issue1.getD [] ++ cartWarning), sCritical,
         ("Critical - may cause query to hang or fail").toList,
         notes2 ++ [noteCritical])
      else (issue1, prio1, impact1, notes2)
    some
      { cte_name := j.cte_name, line_number := j.line_number,
        join_type := j.join_type, left_table := j.left_table,
        right_table := j.right_table, left_size := li.size_category,
        right_size := ri.size_category,
        current_order := j.left_table ++ sp ++ j.join_type ++ sp ++ j.right_table,
        join_condition := j.join_condition, issue := final.1,
        suggested_order := suggested, priority := final.2.1,
        performance_impact := final.2.2.1, optimization_notes := final.2.2.2,
        index_recommendations := index_recommendations }
  | _, _ => none

/-- `SQLJoinAnalyzer.analyze_join_order`: one recommendation per join
whose two tables are registered. -/
def analyzeJoinOrder (tables : TableMap) (joins : List JoinClause) :
    List Recommendation :=
  joins.filterMap (mkRecommendation tables)

/-! ## `_parse_context_info` -/

/-- After a context match's table reference: the regex tail
`\s+.*KW.*` demands at least one whitespace character, after which the
keyword must occur in the line holding the first non-whitespace
character (`.` does not cross newlines, `\s+` may). -/
def tryCtxAt (kw : Str) (l : Str) : Option (Str × Str) :=
  let w1 := l.takeWhile isWordChar
  if w1 = [] then none
  else
    match l.dropWhile isWordChar with
    | '.' :: r2 =>
      let w2 := r2.takeWhile isWordChar
      if w2 = [] then none
      else
        match r2.dropWhile isWordChar with
        | [] => none
        | c :: r3 =>
          if isWs c then
            let afterWs := (c :: r3).dropWhile isWs
            let seg := afterWs.takeWhile (fun d => d != '\n')
            if containsCI kw seg then
              some (w1 ++ [('.' : Char)] ++ w2, afterWs.dropWhile (fun d => d != '\n'))
            else none
          else none
    | _ => none

/-- `re.findall` for a context pattern, leftmost non-overlapping; the
greedy trailing `.*` places each match end at the end of the keyword
line. -/
def findallCtx (kw : Str) : Str → Nat → List Str
  | _, 0 => []
  | [], _ => []
  | l@(_ :: rest), fuel + 1 =>
    match tryCtxAt kw l with
    | some (cap, r) => cap :: findallCtx kw r fuel
    | none => findallCtx kw rest fuel

/-- Ensure a name is present in the context-info dict (the
`description` patterns only create the entry). -/
def ensureHint : HintMap → Str → HintMap
  | m, name =>
    match lookupHint m name with
    | some _ => m
    | none => m ++ [(name, none)]

/-- Set (or overwrite) the `size_hint` of a name. -/
def setHint : HintMap → Str → Str → HintMap
  | [], name, sz => [(name, some sz)]
  | (k, v) :: rest, name, sz =>
    if k = name then (k, some sz) :: rest else (k, v) :: setHint rest name sz

/-- The ordered context patterns of `_parse_context_info`:
keyword and the info type it assigns (`none` = description only). -/
def ctxPatterns : List (Str × Option Str) :=
  [(("contains").toList, none),
   (("fact table").toList, some sLarge),
   (("reference table").toList, some sSmall),
   (("dimension").toList, some sMedium),
   (("lookup").toList, some sSmall)]

/-- `SQLJoinAnalyzer._parse_context_info` (empty content yields no
hints, matching the early return). -/
def buildContextInfo (content : Str) : HintMap :=
  ctxPatterns.foldl
    (fun m pat =>
      (findallCtx pat.1 content content.length).foldl
        (fun m' cap =>
          let name := extractTableName cap
          match pat.2 with
          | some sz => setHint (ensureHint m' name) name sz
          | none => ensureHint m' name)
        m)
    []

/-! ## `load_files` and `main` (file handling and process outcome) -/

/-- Output channel of a printed message.  Python `print` without a
`file` argument writes to standard output. -/
inductive Channel
  | stdout
  | stderr
deriving DecidableEq

abbrev Msg := Channel × Str

/-- The file system visible to the script: name to content. -/
abbrev FileSys := List (Str × Str)

def lookupFS : FileSys → Str → Option Str
  | [], _ => none
  | (k, v) :: rest, n => if k = n then some v else lookupFS rest n

def sqlFileName : Str := ("fulfillment_care_cost.sql").toList

def ctxFileName : Str := ("Breaking Down Logistic Care Costs Query.md").toList

/-- `main`'s fatal message (the file name is quoted in the source). -/
def mainSqlErr : Str :=
  ("Error: SQL file ").toList ++ ['\''] ++ sqlFileName ++ ['\''] ++
  (" not found in current directory").toList

/-- `main`'s warning for the optional context document. -/
def mainCtxWarn : Str :=
  ("Warning: Context file ").toList ++ ['\''] ++ ctxFileName ++ ['\''] ++
  (" not found in current directory").toList

/-- `load_files`' warning for the optional context document. -/
def loadCtxWarn : Str :=
  ("Warning: Context file not found: ").toList ++ ctxFileName

/-- Outcome of running `main` up to and including
`analyze_join_order`: either an early `sys.exit` with the printed
messages, or completion with the recommendation list. -/
inductive RunOutcome
  | exited (code : Nat) (msgs : List Msg)
  | completed (recs : List Recommendation) (msgs : List Msg)
deriving DecidableEq

/-- `main` followed by `load_files`, `parse_joins` and
`analyze_join_order`: the missing required SQL file is fatal (exit
status 1, message on stdout); a missing optional context file prints
two warnings (one from `main`, one from `load_files`), leaves the
context content empty so that no size hints exist, and the analysis
still runs. -/
def runMain (fs : FileSys) : RunOutcome :=
  match lookupFS fs sqlFileName with
  | none => .exited 1 [(.stdout, mainSqlErr)]
  | some sql =>
    match lookupFS fs ctxFileName with
    | none =>
      let parsed := parseJoinsStr [] sql
      .completed (analyzeJoinOrder parsed.2 parsed.1)
        [(.stdout, mainCtxWarn), (.stdout, loadCtxWarn)]
    | some ctx =>
      let hints := buildContextInfo ctx
      let parsed := parseJoinsStr hints sql
      .completed (analyzeJoinOrder parsed.2 parsed.1) []

/-! # Verification of the specified properties -/

/-- The six join keywords the spec lists for `join_type`. -/
def sixJoinTypes : List Str :=
  [("JOIN").toList, ("LEFT JOIN").toList, ("RIGHT JOIN").toList,
   ("INNER JOIN").toList, ("FULL JOIN").toList, ("CROSS JOIN").toList]

def sqlC1 : Str :=
  ("FROM small_ref_table s\nJOIN big_fact_table f ON s.id = f.id").toList

/-- C7: `extract_table_name("schema.Orders o")` drops the alias, strips
the schema and lowercases, giving `"orders"`. -/
theorem C7_extract_table_name :
    extractTableName (("schema.Orders o").toList) = ("orders").toList := by
  decide

/-- C1 (counterexample): on the exact two-line input of the claim the
code does not capture the same-line `ON` clause — the parsed join's
condition is the literal `"Not found"` (not `"s.id = f.id"`) and the
single recommendation's priority is `"critical"` (not `"high"`). -/
theorem C1_counterexample :
    (parseJoinsStr [] sqlC1).1.map JoinClause.join_condition = [sNotFound] ∧
    (analyzeJoinOrder (parseJoinsStr [] sqlC1).2
        (parseJoinsStr [] sqlC1).1).map Recommendation.priority = [sCritical] ∧
    sNotFound ≠ ("s.id = f.id").toList ∧ sCritical ≠ sHigh := by
  decide

/-- C1 (amended): running `parse_joins` then `analyze_join_order` on
`"FROM small_ref_table s\nJOIN big_fact_table f ON s.id = f.id"`
produces exactly one JoinClause with left table `small_ref_table`,
right table `big_fact_table` and condition `"Not found"` (the forward
scan for `ON` starts after the JOIN line, so the same-line condition is
never seen); `small_ref_table` is classified `small` and
`big_fact_table` `large`; and the single recommendation has priority
`"critical"` (the Cartesian-product escalation; the `"high"` swap
branch is also blocked because the bare left reference is flagged as a
CTE). -/
theorem C1_end_to_end :
    (parseJoinsStr [] sqlC1).1 =
      [{ join_type := ("JOIN").toList,
         left_table := ("small_ref_table").toList,
         right_table := ("big_fact_table").toList,
         join_condition := sNotFound, cte_name := none, line_number := 2 }] ∧
    (lookupT (parseJoinsStr [] sqlC1).2
        (("small_ref_table").toList)).map TableInfo.size_category = some sSmall ∧
    (lookupT (parseJoinsStr [] sqlC1).2
        (("big_fact_table").toList)).map TableInfo.size_category = some sLarge ∧
    (analyzeJoinOrder (parseJoinsStr [] sqlC1).2
        (parseJoinsStr [] sqlC1).1).map Recommendation.priority = [sCritical] := by
  decide

def sqlC4 : Str := ("FROM a\nLEFT  JOIN t").toList

/-- C4 (counterexample): the regex group for the join keyword keeps the
original whitespace between the qualifier and `JOIN`, so the input line
`"LEFT  JOIN t"` (two spaces) yields the join type `"LEFT  JOIN"`,
which is not one of the six single-space keywords. -/
theorem C4_counterexample :
    (parseJoinsStr [] sqlC4).1.map JoinClause.join_type =
      [("LEFT  JOIN").toList] ∧
    ("LEFT  JOIN").toList ∉ sixJoinTypes := by
  decide

/-- Key list of a table map. -/
instance : Inhabited TableInfo :=
  ⟨{ name := [], full_name := [], size_category := [], is_cte := false,
     description := [], estimated_rows := [] }⟩

def tableKeys (m : TableMap) : List Str := m.map Prod.fst

theorem lookupT_eq_none_iff :
    ∀ (m : TableMap) (n : Str), lookupT m n = none ↔ n ∉ tableKeys m
  | [], n => by simp [lookupT, tableKeys]
  | (k, v) :: rest, n => by
    unfold lookupT tableKeys
    by_cases h : k = n
    · subst h
      simp
    · rw [if_neg h]
      have ih := lookupT_eq_none_iff rest n
      unfold tableKeys at ih
      rw [ih]
      simp only [List.map_cons, List.mem_cons]
      constructor
      · intro hn hmem
        rcases hmem with h1 | h2
        · exact h h1.symm
        · exact hn h2
      · intro hn h2
        exact hn (Or.inr h2)

/-- C5: registration is idempotent with first-classification-wins: a
later `_register_table` call for an already-registered name leaves the
map — in particular the stored `TableInfo` — unchanged, and
registration preserves key uniqueness, so each distinct table name maps
to exactly one `TableInfo`. -/
theorem C5_register_idempotent :
    (∀ (hints : HintMap) (m : TableMap) (name full : Str) (info : TableInfo),
      lookupT m name = some info →
      registerTable hints m name full = m ∧
      lookupT (registerTable hints m name full) name = some info) ∧
    (∀ (hints : HintMap) (m : TableMap) (name full : Str),
      (tableKeys m).Nodup → (tableKeys (registerTable hints m name full)).Nodup) := by
  constructor
  · intro hints m name full info h
    unfold registerTable
    rw [h]
    exact ⟨rfl, h⟩
  · intro hints m name full hnd
    unfold registerTable
    cases hl : lookupT m name with
    | some _ => exact hnd
    | none =>
      have hmem : name ∉ tableKeys m := (lookupT_eq_none_iff m name).mp hl
      unfold tableKeys at hmem hnd ⊢
      rw [List.map_append]
      rw [List.nodup_append]
      refine ⟨hnd, List.nodup_singleton _, ?_⟩
      intro a ha hb
      simp only [List.map_cons, List.map_nil, List.mem_singleton] at hb
      subst hb
      exact hmem ha

def c5map : TableMap :=
  [(("orders").toList,
    { name := ("orders").toList, full_name := ("gd.orders").toList,
      size_category := sUnknownSize, is_cte := false,
      description := [], estimated_rows := ("Unknown").toList })]

/-- C5 witness at a concrete map. -/
theorem C5_register_idempotent_witness :
    registerTable [] c5map (("orders").toList) (("other.ref").toList) = c5map ∧
    lookupT (registerTable [] c5map (("orders").toList) (("other.ref").toList))
        (("orders").toList) =
      some { name := ("orders").toList, full_name := ("gd.orders").toList,
             size_category := sUnknownSize, is_cte := false,
             description := [], estimated_rows := ("Unknown").toList } :=
  C5_register_idempotent.1 [] c5map (("orders").toList) (("other.ref").toList)
    _ (by decide)

/-- C8 (counterexample): with no files present the process exits with
status 1, but its only message is printed on standard output (Python
`print` without a `file` argument), not on standard error as the claim
states. -/
theorem C8_counterexample :
    runMain [] = RunOutcome.exited 1 [(Channel.stdout, mainSqlErr)] ∧
    Channel.stdout ≠ Channel.stderr := by
  decide

/-- C8 (amended): if the required SQL file is missing the process
prints a message to standard output and exits with status 1; if only
the optional context file is missing the process prints two warnings to
standard output, continues with empty context content (no size hints:
the analysis runs with an empty hint map), and still completes the
analysis. -/
theorem C8_file_handling :
    ∀ fs : FileSys,
      (lookupFS fs sqlFileName = none →
        runMain fs = RunOutcome.exited 1 [(Channel.stdout, mainSqlErr)]) ∧
      (∀ sql, lookupFS fs sqlFileName = some sql →
        lookupFS fs ctxFileName = none →
        runMain fs = RunOutcome.completed
          (analyzeJoinOrder (parseJoinsStr [] sql).2 (parseJoinsStr [] sql).1)
          [(Channel.stdout, mainCtxWarn), (Channel.stdout, loadCtxWarn)]) := by
  intro fs
  constructor
  · intro h
    unfold runMain
    rw [h]
  · intro sql h1 h2
    unfold runMain
    rw [h1, h2]

/-- C8 witness: both branches at concrete file systems. -/
theorem C8_file_handling_witness :
    runMain [] = RunOutcome.exited 1 [(Channel.stdout, mainSqlErr)] ∧
    runMain [(sqlFileName, ("FROM a").toList)] = RunOutcome.completed
      (analyzeJoinOrder (parseJoinsStr [] (("FROM a").toList)).2
        (parseJoinsStr [] (("FROM a").toList)).1)
      [(Channel.stdout, mainCtxWarn), (Channel.stdout, loadCtxWarn)] :=
  ⟨(C8_file_handling []).1 rfl,
   (C8_file_handling [(sqlFileName, ("FROM a").toList)]).2
     (("FROM a").toList) (by decide) (by decide)⟩

theorem lookupT_append_none :
    ∀ (m l2 : TableMap) (n : Str),
      lookupT m n = none → lookupT (m ++ l2) n = lookupT l2 n
  | [], _, _, _ => rfl
  | (k, v) :: rest, l2, n, h => by
    unfold lookupT at h
    rw [List.cons_append]
    show (if k = n then some v else lookupT (rest ++ l2) n) = lookupT l2 n
    by_cases hk : k = n
    · rw [if_pos hk] at h
      exact absurd h (by simp)
    · rw [if_neg hk] at h
      rw [if_neg hk]
      exact lookupT_append_none rest l2 n h

/-- C2: when the forward scan finds no `ON` clause (the scan returns
without taking the `ON` branch), the stored condition is the literal
`"Not found"`; and for every join whose stored condition is
`"Not found"`, the recommendation built by `analyze_join_order`
(`mkRecommendation` is its loop body; `analyzeJoinOrder` is
`filterMap` of it) has priority `"critical"` whatever the size-based
checks chose, with the Cartesian-product warning appended to the issue
text. -/
theorem C2_not_found_critical :
    (∀ (lines : List Str) (start : Nat),
      ejcScan lines start 8 = none →
      extractJoinCondition lines start = sNotFound) ∧
    (∀ (tables : TableMap) (j : JoinClause) (rec : Recommendation),
      j.join_condition = sNotFound →
      mkRecommendation tables j = some rec →
      rec.priority = sCritical ∧
      ∃ pre, rec.issue = some (pre ++ cartWarning)) := by
  constructor
  · intro lines start h
    unfold extractJoinCondition
    rw [h]
  · intro tables j rec hcond hrec
    unfold mkRecommendation at hrec
    cases hl : lookupT tables j.left_table with
    | none => rw [hl] at hrec; exact absurd hrec (by simp)
    | some li =>
      cases hr : lookupT tables j.right_table with
      | none => rw [hl, hr] at hrec; exact absurd hrec (by simp)
      | some ri =>
        rw [hl, hr] at hrec
        dsimp only at hrec
        simp [hcond] at hrec
        rw [← hrec]
        exact ⟨rfl, ⟨_, rfl⟩⟩

/-- A concrete `TableInfo` for witness instances. -/
def tiOf (nm sz : Str) (cte : Bool) : TableInfo :=
  { name := nm, full_name := nm, size_category := sz, is_cte := cte,
    description := [], estimated_rows := [] }

def c2tables : TableMap :=
  [(("a").toList, tiOf (("a").toList) sUnknownSize true),
   (("b").toList, tiOf (("b").toList) sUnknownSize true)]

def c2join : JoinClause :=
  { join_type := ("JOIN").toList, left_table := ("a").toList,
    right_table := ("b").toList, join_condition := sNotFound,
    cte_name := none, line_number := 1 }

def c2rec : Recommendation :=
  { cte_name := none, line_number := 1, join_type := ("JOIN").toList,
    left_table := ("a").toList, right_table := ("b").toList,
    left_size := sUnknownSize, right_size := sUnknownSize,
    current_order := ("a JOIN b").toList, join_condition := sNotFound,
    issue := some cartWarning, suggested_order := none,
    priority := sCritical,
    performance_impact := ("Critical - may cause query to hang or fail").toList,
    optimization_notes := [noteCritical], index_recommendations := [] }

/-- C2 witness at concrete inputs. -/
theorem C2_not_found_critical_witness :
    extractJoinCondition [] 0 = sNotFound ∧
    (c2rec.priority = sCritical ∧
      ∃ pre, c2rec.issue = some (pre ++ cartWarning)) :=
  ⟨C2_not_found_critical.1 [] 0 (by decide),
   C2_not_found_critical.2 c2tables c2join c2rec rfl (by decide)⟩

/-- C3: for a parsed join whose left table is registered `small`, whose
right table is registered `large`, neither flagged as a CTE, and whose
condition is not `"Not found"`, the recommendation has priority exactly
`"high"` and its suggestion swaps the two tables around the unchanged
join type. -/
theorem C3_small_large_swap :
    ∀ (tables : TableMap) (j : JoinClause) (li ri : TableInfo)
      (rec : Recommendation),
      lookupT tables j.left_table = some li →
      lookupT tables j.right_table = some ri →
      li.size_category = sSmall → ri.size_category = sLarge →
      li.is_cte = false → ri.is_cte = false →
      j.join_condition ≠ sNotFound →
      mkRecommendation tables j = some rec →
      rec.priority = sHigh ∧
      rec.suggested_order =
        some (j.right_table ++ sp ++ j.join_type ++ sp ++ j.left_table) := by
  intro tables j li ri rec hl hr hls hrs hlc hrc hcond hrec
  unfold mkRecommendation at hrec
  rw [hl, hr] at hrec
  dsimp only at hrec
  rw [hls, hrs, hlc, hrc] at hrec
  simp [hcond] at hrec
  rw [← hrec]
  exact ⟨rfl, by simp [List.append_assoc]⟩

def c3tables : TableMap :=
  [(("s").toList, tiOf (("s").toList) sSmall false),
   (("f").toList, tiOf (("f").toList) sLarge false)]

def c3join : JoinClause :=
  { join_type := ("JOIN").toList, left_table := ("s").toList,
    right_table := ("f").toList, join_condition := ("x = y").toList,
    cte_name := none, line_number := 1 }

def c3rec : Recommendation :=
  { cte_name := none, line_number := 1, join_type := ("JOIN").toList,
    left_table := ("s").toList, right_table := ("f").toList,
    left_size := sSmall, right_size := sLarge,
    current_order := ("s JOIN f").toList, join_condition := ("x = y").toList,
    issue := some (("Large table (f) should typically be on the left side of JOIN for better performance").toList),
    suggested_order := some (("f JOIN s").toList), priority := sHigh,
    performance_impact := ("High - can significantly reduce query execution time").toList,
    optimization_notes := [noteSwapLarge], index_recommendations := [] }

/-- C3 witness at concrete inputs. -/
theorem C3_small_large_swap_witness :
    c3rec.priority = sHigh ∧
    c3rec.suggested_order =
      some (c3join.right_table ++ sp ++ c3join.join_type ++ sp ++
        c3join.left_table) :=
  C3_small_large_swap c3tables c3join (tiOf (("s").toList) sSmall false)
    (tiOf (("f").toList) sLarge false) c3rec (by decide) (by decide) rfl rfl
    rfl rfl (by decide) (by decide)

/-- C6: with no context hints, `"adj"` classifies as `"derived"` (exact
CTE-alias match) and `"order_contribution_profit_fact"` as `"large"`
(large-pattern match); and a join with left size `derived`, right size
`large` and a found condition gets priority `"info"`. -/
theorem C6_derived_large_info :
    categorizeTableSize [] (("adj").toList) = sDerived ∧
    categorizeTableSize [] (("order_contribution_profit_fact").toList) = sLarge ∧
    (∀ (tables : TableMap) (j : JoinClause) (li ri : TableInfo)
      (rec : Recommendation),
      lookupT tables j.left_table = some li →
      lookupT tables j.right_table = some ri →
      li.size_category = sDerived → ri.size_category = sLarge →
      j.join_condition ≠ sNotFound →
      mkRecommendation tables j = some rec →
      rec.priority = sInfo) := by
  refine ⟨by decide, by decide, ?_⟩
  intro tables j li ri rec hl hr hls hrs hcond hrec
  unfold mkRecommendation at hrec
  rw [hl, hr] at hrec
  dsimp only at hrec
  rw [hls, hrs] at hrec
  have h1 : sDerived ≠ sMedium := by decide
  have h2 : sDerived ≠ sSmall := by decide
  have h3 : sLarge ≠ sMedium := by decide
  simp [h1, h2, h3, hcond] at hrec
  rw [← hrec]

def c6tables : TableMap :=
  [(("adj").toList, tiOf (("adj").toList) sDerived true),
   (("ocpf").toList, tiOf (("ocpf").toList) sLarge false)]

def c6join : JoinClause :=
  { join_type := ("JOIN").toList, left_table := ("adj").toList,
    right_table := ("ocpf").toList, join_condition := ("x = y").toList,
    cte_name := none, line_number := 1 }

def c6rec : Recommendation :=
  { cte_name := none, line_number := 1, join_type := ("JOIN").toList,
    left_table := ("adj").toList, right_table := ("ocpf").toList,
    left_size := sDerived, right_size := sLarge,
    current_order := ("adj JOIN ocpf").toList,
    join_condition := ("x = y").toList,
    issue := some (("Consider the size of derived table (adj) - if small, consider moving large table (ocpf) to the left").toList),
    suggested_order := some (("Depends on derived table size: possibly ocpf JOIN adj").toList),
    priority := sInfo,
    performance_impact := ("Variable - depends on derived table size").toList,
    optimization_notes := [noteDerived], index_recommendations := [] }

/-- C6 witness at concrete inputs. -/
theorem C6_derived_large_info_witness : c6rec.priority = sInfo :=
  C6_derived_large_info.2.2 c6tables c6join
    (tiOf (("adj").toList) sDerived true)
    (tiOf (("ocpf").toList) sLarge false) c6rec (by decide) (by decide) rfl
    rfl (by decide) (by decide)

/-- C10: `extract_table_name` never returns a name containing a dot;
`parse_joins` registers a left table under its bare extracted name as
its own full reference, and such a first registration always sets
`is_cte`; and a join whose left table's record has `is_cte` set can
never receive the `"high"` or `"medium"` swap recommendation. -/
theorem C10_left_bare_cte :
    (∀ ref : Str, ('.' : Char) ∉ extractTableName ref) ∧
    (∀ (hints : HintMap) (m : TableMap) (name : Str),
      ('.' : Char) ∉ name → lookupT m name = none →
      ∃ info, lookupT (registerTable hints m name name) name = some info ∧
        info.is_cte = true) ∧
    (∀ (tables : TableMap) (j : JoinClause) (li : TableInfo)
      (rec : Recommendation),
      lookupT tables j.left_table = some li → li.is_cte = true →
      mkRecommendation tables j = some rec →
      rec.priority ≠ sHigh ∧ rec.priority ≠ sMediumPr) := by
  refine ⟨?_, ?_, ?_⟩
  · intro ref
    unfold extractTableName
    dsimp only
    split
    · intro hmem
      rw [List.mem_reverse] at hmem
      have := List.mem_takeWhile_imp hmem
      simp at this
    · intro hmem
      simp_all
  · intro hints m name hdot hnone
    unfold registerTable
    rw [hnone]
    dsimp only
    rw [lookupT_append_none m _ name hnone]
    unfold lookupT
    rw [if_pos rfl]
    refine ⟨_, rfl, ?_⟩
    dsimp only
    rw [if_neg hdot]
  · intro tables j li rec hl hcte hrec
    unfold mkRecommendation at hrec
    cases hr : lookupT tables j.right_table with
    | none => rw [hl, hr] at hrec; exact absurd hrec (by simp)
    | some ri =>
      rw [hl, hr] at hrec
      dsimp only at hrec
      rw [hcte] at hrec
      simp at hrec
      rw [← hrec]
      constructor
      · dsimp only
        split
        · dsimp only
          decide
        · dsimp only
          split
          · dsimp only
            decide
          · dsimp only
            decide
      · dsimp only
        split
        · dsimp only
          decide
        · dsimp only
          split
          · dsimp only
            decide
          · dsimp only
            decide

def c10tables : TableMap :=
  [(("s").toList, tiOf (("s").toList) sSmall true),
   (("f").toList, tiOf (("f").toList) sLarge false)]

def c10join : JoinClause :=
  { join_type := ("JOIN").toList, left_table := ("s").toList,
    right_table := ("f").toList, join_condition := ("x = y").toList,
    cte_name := none, line_number := 1 }

def c10rec : Recommendation :=
  { cte_name := none, line_number := 1, join_type := ("JOIN").toList,
    left_table := ("s").toList, right_table := ("f").toList,
    left_size := sSmall, right_size := sLarge,
    current_order := ("s JOIN f").toList, join_condition := ("x = y").toList,
    issue := none, suggested_order := none, priority := sLow,
    performance_impact := ("Low").toList, optimization_notes := [],
    index_recommendations := [] }

/-- C10 witness at concrete inputs (a small-vs-large join that the
`is_cte` flag demotes from `"high"` to `"low"`). -/
theorem C10_left_bare_cte_witness :
    ('.' : Char) ∉ extractTableName (("gd.orders o").toList) ∧
    (∃ info,
      lookupT (registerTable [] [] (("orders").toList) (("orders").toList))
          (("orders").toList) = some info ∧ info.is_cte = true) ∧
    (c10rec.priority ≠ sHigh ∧ c10rec.priority ≠ sMediumPr) :=
  ⟨C10_left_bare_cte.1 (("gd.orders o").toList),
   C10_left_bare_cte.2.1 [] [] (("orders").toList) (by decide) rfl,
   C10_left_bare_cte.2.2 c10tables c10join
     (tiOf (("s").toList) sSmall true) c10rec (by decide) rfl (by decide)⟩

theorem ciSplit_spec :
    ∀ (kw l a r : Str), ciSplit kw l = some (a, r) →
      l = a ++ r ∧ upperStr a = upperStr kw
  | [], l, a, r, h => by
    unfold ciSplit at h
    simp at h
    obtain ⟨h1, h2⟩ := h
    subst h1
    subst h2
    exact ⟨rfl, rfl⟩
  | _ :: _, [], a, r, h => by
    simp [ciSplit] at h
  | k :: ks, c :: cs, a, r, h => by
    unfold ciSplit at h
    by_cases hc : toUpperChar c = toUpperChar k
    · rw [if_pos hc] at h
      cases hrec : ciSplit ks cs with
      | none => rw [hrec] at h; simp at h
      | some p =>
        obtain ⟨a', r'⟩ := p
        rw [hrec] at h
        simp at h
        obtain ⟨ha, hr⟩ := h
        subst ha
        subst hr
        have ih := ciSplit_spec ks cs a' r' hrec
        refine ⟨?_, ?_⟩
        · rw [List.cons_append, ← ih.1]
        · unfold upperStr
          rw [List.map_cons, List.map_cons]
          rw [hc]
          have := ih.2
          unfold upperStr at this
          rw [this]
    · rw [if_neg hc] at h
      simp at h

theorem collapseWsGo_cons (b : Bool) (c : Char) (rest : Str) :
    collapseWsGo b (c :: rest) =
      if isWs c then
        (if b then collapseWsGo true rest else ' ' :: collapseWsGo true rest)
      else c :: collapseWsGo false rest := rfl

theorem ws_upper : ∀ c : Char, isWs c = true → toUpperChar c = c := by
  intro c h
  simp only [isWs, Bool.or_eq_true, beq_iff_eq] at h
  rcases h with ((((rfl | rfl) | rfl) | rfl) | rfl) | rfl <;> decide

theorem nonWs_of_upper_eq (c K : Char) (h : toUpperChar c = K)
    (hK : isWs K = false) : isWs c = false := by
  by_cases hw : isWs c
  · rw [ws_upper c hw] at h
    subst h
    exact absurd hw (by simp [hK])
  · simpa using hw

theorem all_nonWs_of_upper (a U : Str) (h : upperStr a = U)
    (hU : ∀ K ∈ U, isWs K = false) : ∀ c ∈ a, isWs c = false := by
  intro c hc
  exact nonWs_of_upper_eq c (toUpperChar c) rfl
    (hU _ (h ▸ List.mem_map_of_mem toUpperChar hc))

theorem all_ws_of_upper (w : Str) (hw : ∀ c ∈ w, isWs c = true) :
    ∀ c ∈ upperStr w, isWs c = true := by
  intro c hc
  unfold upperStr at hc
  rw [List.mem_map] at hc
  obtain ⟨d, hd, rfl⟩ := hc
  rw [ws_upper d (hw d hd)]
  exact hw d hd

theorem dropWhile_isWs_eq_self :
    ∀ l : Str, (∀ c, l.head? = some c → isWs c = false) →
      l.dropWhile isWs = l
  | [], _ => rfl
  | c :: t, h => by
    rw [List.dropWhile_cons]
    simp [h c rfl]

theorem pyStrip_of_ends (l : Str)
    (hh : ∀ c, l.head? = some c → isWs c = false)
    (hl : ∀ c, l.reverse.head? = some c → isWs c = false) :
    pyStrip l = l := by
  unfold pyStrip pyStripLeft pyStripRight
  rw [dropWhile_isWs_eq_self l hh, dropWhile_isWs_eq_self l.reverse hl,
    List.reverse_reverse]

theorem pyStrip_all_nonWs (l : Str) (h : ∀ c ∈ l, isWs c = false) :
    pyStrip l = l := by
  refine pyStrip_of_ends l ?_ ?_
  · intro c hc
    cases l with
    | nil => simp at hc
    | cons a t =>
      simp at hc
      subst hc
      exact h a (by simp)
  · intro c hc
    cases hrev : l.reverse with
    | nil => rw [hrev] at hc; simp at hc
    | cons a t =>
      rw [hrev] at hc
      simp at hc
      subst hc
      refine h a ?_
      rw [← List.mem_reverse, hrev]
      simp

theorem collapseWsGo_nonWs (b : Bool) :
    ∀ (A : Str), (∀ c ∈ A, isWs c = false) → collapseWsGo b A = A := by
  intro A
  induction A generalizing b with
  | nil => intro _; rfl
  | cons a t ih =>
    intro h
    rw [collapseWsGo_cons]
    rw [if_neg (by simp [h a (by simp)])]
    rw [ih false (fun c hc => h c (by simp [hc]))]

theorem collapseWsGo_append_nonWs :
    ∀ (A rest : Str), (∀ c ∈ A, isWs c = false) →
      collapseWsGo false (A ++ rest) = A ++ collapseWsGo false rest
  | [], rest, _ => rfl
  | a :: t, rest, h => by
    rw [List.cons_append, collapseWsGo_cons]
    rw [if_neg (by simp [h a (by simp)])]
    rw [collapseWsGo_append_nonWs t rest (fun c hc => h c (by simp [hc]))]
    rfl

theorem collapseWsGo_true_ws :
    ∀ (W rest : Str), (∀ c ∈ W, isWs c = true) →
      collapseWsGo true (W ++ rest) = collapseWsGo true rest
  | [], rest, _ => rfl
  | w :: t, rest, h => by
    rw [List.cons_append, collapseWsGo_cons]
    rw [if_pos (h w (by simp))]
    rw [if_pos rfl]
    exact collapseWsGo_true_ws t rest (fun c hc => h c (by simp [hc]))

theorem collapseWsGo_false_ws (W rest : Str) (h : ∀ c ∈ W, isWs c = true)
    (hne : W ≠ []) :
    collapseWsGo false (W ++ rest) = ' ' :: collapseWsGo true rest := by
  cases W with
  | nil => exact absurd rfl hne
  | cons w t =>
    rw [List.cons_append, collapseWsGo_cons]
    rw [if_pos (h w (by simp))]
    rw [if_neg (by simp)]
    rw [collapseWsGo_true_ws t rest (fun c hc => h c (by simp [hc]))]

theorem collapseWsGo_true_nonWs (B : Str) (h : ∀ c ∈ B, isWs c = false) :
    collapseWsGo true B = B :=
  collapseWsGo_nonWs true B h

theorem collapseWs_segments (q w jw : Str)
    (hq : ∀ c ∈ q, isWs c = false) (hw : ∀ c ∈ w, isWs c = true)
    (hjw : ∀ c ∈ jw, isWs c = false) (hwne : w ≠ []) :
    collapseWs (q ++ w ++ jw) = q ++ (' ' :: jw) := by
  unfold collapseWs
  rw [List.append_assoc]
  rw [collapseWsGo_append_nonWs q (w ++ jw) hq]
  rw [collapseWsGo_false_ws w jw hw hwne]
  rw [collapseWsGo_nonWs true jw hjw]

theorem tryQualJoin_joinType (kw m g1 r : Str)
    (hnws : ∀ K ∈ upperStr kw, isWs K = false) (hne : kw ≠ [])
    (h : tryQualJoin kw m = some (g1, r)) :
    collapseWs (upperStr (pyStrip g1)) = upperStr kw ++ (' ' :: (("JOIN").toList)) := by
  unfold tryQualJoin at h
  cases hq : ciSplit kw m with
  | none => rw [hq] at h; simp at h
  | some p =>
    obtain ⟨q, r1⟩ := p
    rw [hq] at h
    dsimp only at h
    by_cases hws : r1.takeWhile isWs = []
    · rw [if_pos hws] at h; simp at h
    · rw [if_neg hws] at h
      cases hj : ciSplit kwJoin (r1.dropWhile isWs) with
      | none => rw [hj] at h; simp at h
      | some p2 =>
        obtain ⟨jw, r3⟩ := p2
        rw [hj] at h
        simp at h
        obtain ⟨hg1, _⟩ := h
        have hqs := ciSplit_spec kw m q r1 hq
        have hjs := ciSplit_spec kwJoin (r1.dropWhile isWs) jw r3 hj
        have hqU : upperStr q = upperStr kw := hqs.2
        have hjU : upperStr jw = ("JOIN").toList := by
          rw [hjs.2]; decide
        have hqnws : ∀ c ∈ q, isWs c = false :=
          all_nonWs_of_upper q (upperStr kw) hqU (fun K hK => hnws K hK)
        have hjnws : ∀ c ∈ jw, isWs c = false :=
          all_nonWs_of_upper jw (("JOIN").toList) hjU (by decide)
        have hwws : ∀ c ∈ r1.takeWhile isWs, isWs c = true :=
          fun c hc => List.mem_takeWhile_imp hc
        have hqne : q ≠ [] := by
          intro hq0
          rw [hq0] at hqU
          have : upperStr kw = [] := hqU.symm
          exact hne (by simpa [upperStr] using this)
        have hjne : jw ≠ [] := by
          intro hj0
          rw [hj0] at hjU
          simp [upperStr] at hjU
        subst hg1
        have hstrip : pyStrip (q ++ r1.takeWhile isWs ++ jw) =
            q ++ r1.takeWhile isWs ++ jw := by
          refine pyStrip_of_ends _ ?_ ?_
          · intro c hc
            cases q with
            | nil => exact absurd rfl hqne
            | cons a t =>
              rw [List.cons_append, List.cons_append] at hc
              simp at hc
              subst hc
              exact hqnws a (by simp)
          · intro c hc
            rw [List.reverse_append] at hc
            cases hrev : jw.reverse with
            | nil => exact absurd (by simpa using hrev) hjne
            | cons b t =>
              rw [hrev] at hc
              simp at hc
              subst hc
              exact hjnws b (by rw [← List.mem_reverse, hrev]; simp)
        rw [← List.append_assoc]
        rw [hstrip]
        unfold upperStr
        rw [List.map_append, List.map_append]
        have := collapseWs_segments (q.map toUpperChar)
          ((r1.takeWhile isWs).map toUpperChar) (jw.map toUpperChar)
          (fun c hc => by
            have : c ∈ upperStr kw := by
              unfold upperStr at hqU ⊢
              rw [← hqU]; exact hc
            exact hnws c this)
          (all_ws_of_upper _ hwws)
          (fun c hc =>
            have hall : ∀ K ∈ (("JOIN").toList : Str), isWs K = false := by decide
            hall c (hjU ▸ hc))
          (by simpa using hws)
        rw [this]
        have hq2 : q.map toUpperChar = upperStr kw := hqU
        have hj2 : jw.map toUpperChar = ("JOIN").toList := hjU
        rw [hq2, hj2]
        rfl

theorem ciSplit_join_joinType (m jw r : Str)
    (h : ciSplit kwJoin m = some (jw, r)) :
    collapseWs (upperStr (pyStrip jw)) = ("JOIN").toList := by
  have hjs := ciSplit_spec kwJoin m jw r h
  have hjU : upperStr jw = ("JOIN").toList := by
    rw [hjs.2]; decide
  have hjnws : ∀ c ∈ jw, isWs c = false :=
    all_nonWs_of_upper jw (("JOIN").toList) hjU (by decide)
  rw [pyStrip_all_nonWs jw hjnws]
  unfold collapseWs
  rw [collapseWsGo_nonWs false (upperStr jw)
    (fun c hc =>
      have hall : ∀ K ∈ (("JOIN").toList : Str), isWs K = false := by decide
      hall c (hjU ▸ hc))]
  exact hjU

theorem matchJoinLine_joinType (l g1 g2 : Str)
    (h : matchJoinLine l = some (g1, g2)) :
    collapseWs (upperStr (pyStrip g1)) ∈ sixJoinTypes := by
  unfold matchJoinLine at h
  dsimp only at h
  cases hL : tryQualJoin kwLeft (l.dropWhile isWs) with
  | some p =>
    rw [hL] at h
    obtain ⟨a, b⟩ := p
    simp at h
    obtain ⟨rfl, rfl⟩ := h
    rw [tryQualJoin_joinType kwLeft _ _ _ (by decide) (by decide) hL]
    decide
  | none =>
    rw [hL] at h
    cases hR : tryQualJoin kwRight (l.dropWhile isWs) with
    | some p =>
      rw [hR] at h
      obtain ⟨a, b⟩ := p
      simp at h
      obtain ⟨rfl, rfl⟩ := h
      rw [tryQualJoin_joinType kwRight _ _ _ (by decide) (by decide) hR]
      decide
    | none =>
      rw [hR] at h
      cases hI : tryQualJoin kwInner (l.dropWhile isWs) with
      | some p =>
        rw [hI] at h
        obtain ⟨a, b⟩ := p
        simp at h
        obtain ⟨rfl, rfl⟩ := h
        rw [tryQualJoin_joinType kwInner _ _ _ (by decide) (by decide) hI]
        decide
      | none =>
        rw [hI] at h
        cases hF : tryQualJoin kwFull (l.dropWhile isWs) with
        | some p =>
          rw [hF] at h
          obtain ⟨a, b⟩ := p
          simp at h
          obtain ⟨rfl, rfl⟩ := h
          rw [tryQualJoin_joinType kwFull _ _ _ (by decide) (by decide) hF]
          decide
        | none =>
          rw [hF] at h
          cases hC : tryQualJoin kwCross (l.dropWhile isWs) with
          | some p =>
            rw [hC] at h
            obtain ⟨a, b⟩ := p
            simp at h
            obtain ⟨rfl, rfl⟩ := h
            rw [tryQualJoin_joinType kwCross _ _ _ (by decide) (by decide) hC]
            decide
          | none =>
            rw [hC] at h
            rw [ciSplit_join_joinType (l.dropWhile isWs) g1 g2 h]
            decide

/-- Invariant form of the amended C4 over the `parse_joins` loop. -/
theorem parseGo_join_type (hints : HintMap) (lines : List Str) :
    ∀ (rem : List Str) (i : Nat) (cte : Option Str) (js : List JoinClause)
      (ts : TableMap),
      (∀ j ∈ js, collapseWs j.join_type ∈ sixJoinTypes) →
      ∀ j ∈ (parseGo hints lines rem i cte js ts).1,
        collapseWs j.join_type ∈ sixJoinTypes
  | [], i, cte, js, ts, hjs => hjs
  | line :: rest, i, cte, js, ts, hjs => by
    unfold parseGo
    cases hcte : matchCte line with
    | some name =>
      exact parseGo_join_type hints lines rest (i + 1) (some name) js ts hjs
    | none =>
      cases hjl : matchJoinLine line with
      | none =>
        exact parseGo_join_type hints lines rest (i + 1) cte js ts hjs
      | some p =>
        obtain ⟨g1, g2⟩ := p
        dsimp only
        repeat' split
        all_goals
          first
          | exact parseGo_join_type hints lines _ (i + 1) cte js ts hjs
          | · refine parseGo_join_type hints lines _ (i + 1) cte _ _ ?_
              intro j hj
              rw [List.mem_append] at hj
              rcases hj with hj | hj
              · exact hjs j hj
              · simp at hj
                subst hj
                exact matchJoinLine_joinType line g1 g2 hjl

/-- C4 (amended): every parsed `join_type` is the uppercased join
keyword with the original whitespace between qualifier and `JOIN`
preserved; after collapsing internal whitespace runs to single spaces
it is one of the six recognized values. -/
theorem C4_join_type_normalized :
    ∀ (hints : HintMap) (sql : Str),
      ∀ j ∈ (parseJoinsStr hints sql).1,
        collapseWs j.join_type ∈ sixJoinTypes := by
  intro hints sql
  exact parseGo_join_type hints (splitLines sql) (splitLines sql) 1 none [] []
    (by intro j hj; simp at hj)

/-- C4 witness: the normalized join type of the counterexample parse. -/
theorem C4_join_type_normalized_witness :
    collapseWs (("LEFT  JOIN").toList) ∈ sixJoinTypes := by
  have h := C4_join_type_normalized [] sqlC4
    { join_type := ("LEFT  JOIN").toList, left_table := ("a").toList,
      right_table := ("t").toList, join_condition := sNotFound,
      cte_name := none, line_number := 2 } (by decide)
  exact h

theorem get?_shift (A A' B : List Str) (j : Nat) :
    (A ++ B).get? (A.length + j) = (A' ++ B).get? (A'.length + j) := by
  rw [List.get?_append_right (by omega), List.get?_append_right (by omega)]
  congr 1
  omega

theorem andLoop_shift :
    ∀ (fuel : Nat) (A A' B : List Str) (j : Nat) (acc : List Str),
      andLoop (A ++ B) (A.length + j) fuel acc =
        andLoop (A' ++ B) (A'.length + j) fuel acc
  | 0, _, _, _, _, _ => rfl
  | fuel + 1, A, A', B, j, acc => by
    unfold andLoop
    rw [get?_shift A A' B j]
    cases (A' ++ B).get? (A'.length + j) with
    | none => rfl
    | some nl0 =>
      dsimp only
      have h1 : A.length + j + 1 = A.length + (j + 1) := by omega
      have h2 : A'.length + j + 1 = A'.length + (j + 1) := by omega
      split
      · rw [h1, h2, andLoop_shift fuel A A' B (j + 1) acc]
      · split
        · rw [h1, h2, andLoop_shift fuel A A' B (j + 1) (acc ++ [pyStrip nl0])]
        · rfl

theorem ejcScan_shift :
    ∀ (fuel : Nat) (A A' B : List Str) (j : Nat),
      ejcScan (A ++ B) (A.length + j) fuel =
        ejcScan (A' ++ B) (A'.length + j) fuel
  | 0, _, _, _, _ => rfl
  | fuel + 1, A, A', B, j => by
    unfold ejcScan
    rw [get?_shift A A' B j]
    cases (A' ++ B).get? (A'.length + j) with
    | none => rfl
    | some l0 =>
      dsimp only
      have h1 : A.length + j + 1 = A.length + (j + 1) := by omega
      have h2 : A'.length + j + 1 = A'.length + (j + 1) := by omega
      split
      · rw [h1, h2, ejcScan_shift fuel A A' B (j + 1)]
      · split
        · rw [h1, h2, andLoop_shift 4 A A' B (j + 1) _]
        · split
          · rfl
          · rw [h1, h2, ejcScan_shift fuel A A' B (j + 1)]

theorem extractJoinCondition_shift (A A' B : List Str) :
    extractJoinCondition (A ++ B) A.length =
      extractJoinCondition (A' ++ B) A'.length := by
  unfold extractJoinCondition
  have h := ejcScan_shift 8 A A' B 0
  rw [Nat.add_zero, Nat.add_zero] at h
  rw [h]

theorem splitLines_noNl :
    ∀ l : Str, ('\n' : Char) ∉ l → splitLines l = [l]
  | [], _ => rfl
  | c :: t, h => by
    simp only [splitLines]
    rw [if_neg (by intro hc; exact h (by simp [hc]))]
    rw [splitLines_noNl t (fun ht => h (by simp [ht]))]

theorem splitLines_append_nl :
    ∀ (P s : Str), ('\n' : Char) ∉ P →
      splitLines (P ++ '\n' :: s) = P :: splitLines s
  | [], s, _ => by
    rw [List.nil_append]
    simp only [splitLines]
    simp
  | c :: t, s, h => by
    rw [List.cons_append]
    simp only [splitLines]
    rw [if_neg (by intro hc; exact h (by simp [hc]))]
    rw [splitLines_append_nl t s (fun ht => h (by simp [ht]))]

theorem pyStripLeft_ws_cons (c : Char) (l : Str) (h : isWs c = true) :
    pyStripLeft (c :: l) = pyStripLeft l := by
  unfold pyStripLeft
  rw [List.dropWhile_cons, if_pos h]

theorem pyStripLeft_nonWs_cons (c : Char) (l : Str) (h : isWs c = false) :
    pyStripLeft (c :: l) = c :: l := by
  unfold pyStripLeft
  rw [List.dropWhile_cons, if_neg (by simp [h])]

theorem pyStripRight_ne_nil (l : Str) (c : Char) (hc : c ∈ l)
    (hnw : isWs c = false) : pyStripRight l ≠ [] := by
  unfold pyStripRight
  intro h
  rw [List.reverse_eq_nil_iff] at h
  rw [List.dropWhile_eq_nil_iff] at h
  have := h c (by simp [hc])
  rw [hnw] at this
  exact Bool.false_ne_true this

theorem pyStrip_ne_nil (l : Str) (c : Char) (hc : c ∈ l)
    (hnw : isWs c = false) : pyStrip l ≠ [] := by
  unfold pyStrip
  refine pyStripRight_ne_nil _ c ?_ hnw
  unfold pyStripLeft
  by_cases hmem : c ∈ l.dropWhile isWs
  · exact hmem
  · exfalso
    have htake : c ∈ l.takeWhile isWs := by
      have := List.takeWhile_append_dropWhile (p := isWs) (l := l)
      rw [← this] at hc
      rw [List.mem_append] at hc
      rcases hc with h1 | h1
      · exact h1
      · exact absurd h1 hmem
    have := List.mem_takeWhile_imp htake
    rw [hnw] at this
    exact Bool.false_ne_true this

/-- C9, concrete family: any text of the shape
`"FROM a\nJOIN t ON <rest>"` (the whole ON clause on the JOIN line, no
further lines) parses to a single join on line 2 whose condition is
`"Not found"`. -/
theorem parse_same_line_on (rest : Str) (hnl : ('\n' : Char) ∉ rest) :
    (parseJoinsStr [] (("FROM a\nJOIN t ON ").toList ++ rest)).1.map
      (fun j => (j.join_condition, j.line_number)) = [(sNotFound, 2)] := by
  have hsplit : splitLines (("FROM a\nJOIN t ON ").toList ++ rest) =
      [("FROM a").toList,
       ('J' :: 'O' :: 'I' :: 'N' :: ' ' :: 't' :: ' ' :: 'O' :: 'N' :: ' ' ::rest)] := by
    have h1 : ("FROM a\nJOIN t ON ").toList ++ rest =
        ("FROM a").toList ++
          '\n' :: ('J' :: 'O' :: 'I' :: 'N' :: ' ' :: 't' :: ' ' :: 'O' :: 'N' :: ' ' ::rest) := rfl
    rw [h1, splitLines_append_nl _ _ (by decide)]
    rw [splitLines_noNl _ ?hnn]
    case hnn =>
      intro hmem
      simp at hmem
      exact hnl hmem
  have hne : pyStrip ((' ' :: 't' :: ' ' :: 'O' :: 'N' :: ' ' ::rest : Str)) ≠ [] :=
    pyStrip_ne_nil _ 't' (by simp) (by decide)
  unfold parseJoinsStr parseJoins
  rw [hsplit]
  unfold parseGo
  rw [show matchCte (("FROM a").toList) = none from rfl]
  rw [show matchJoinLine (("FROM a").toList) = none from rfl]
  unfold parseGo
  rw [show matchCte (('J' :: 'O' :: 'I' :: 'N' :: ' ' :: 't' :: ' ' :: 'O' :: 'N' :: ' ' ::rest : Str)) = none from rfl]
  rw [show matchJoinLine (('J' :: 'O' :: 'I' :: 'N' :: ' ' :: 't' :: ' ' :: 'O' :: 'N' :: ' ' ::rest : Str)) =
      some (('J' :: 'O' :: 'I' :: 'N' ::([] : Str)), ' ' :: 't' :: ' ' :: 'O' :: 'N' :: ' ' ::rest) from rfl]
  dsimp only
  rw [if_neg hne]
  dsimp only
  rw [if_neg hne]
  unfold parseGo
  dsimp only
  rw [show extractJoinCondition
      [("FROM a").toList,
       ('J' :: 'O' :: 'I' :: 'N' :: ' ' :: 't' :: ' ' :: 'O' :: 'N' :: ' ' ::rest : Str)] (1 + 1) =
    sNotFound from rfl]
  rfl

/-- C9: the forward scan for the `ON` clause is handed the 1-based
number of the table line as a 0-based start index, so it only ever
reads lines strictly after that line — the condition extracted for a
join is invariant under replacing everything up to and including the
scan origin; in particular a join whose `ON` clause sits entirely on
the JOIN line itself (with nothing after) gets
`join_condition = "Not found"`. -/
theorem C9_scan_starts_after_join_line :
    (∀ (A A' B : List Str),
      extractJoinCondition (A ++ B) A.length =
        extractJoinCondition (A' ++ B) A'.length) ∧
    (∀ rest : Str, ('\n' : Char) ∉ rest →
      (parseJoinsStr [] (("FROM a\nJOIN t ON ").toList ++ rest)).1.map
        (fun j => (j.join_condition, j.line_number)) = [(sNotFound, 2)]) :=
  ⟨extractJoinCondition_shift, parse_same_line_on⟩

/-- C9 witness at concrete inputs. -/
theorem C9_scan_starts_after_join_line_witness :
    extractJoinCondition ([("a").toList] ++ [("ON c = d").toList]) 1 =
      extractJoinCondition ([("completely different").toList] ++
        [("ON c = d").toList]) 1 ∧
    (parseJoinsStr []
        (("FROM a\nJOIN t ON ").toList ++ ("x = y").toList)).1.map
      (fun j => (j.join_condition, j.line_number)) = [(sNotFound, 2)] :=
  ⟨C9_scan_starts_after_join_line.1 [("a").toList]
     [("completely different").toList] [("ON c = d").toList],
   C9_scan_starts_after_join_line.2 (("x = y").toList) (by decide)⟩
